import Mathlib

/-
Verification of the Resume Reviewer backend (src/backend/main.py).

The development is a shallow embedding of the Python module into Lean:
pure helpers become Lean functions, the module-level mutable state
(the per-client rate-limit table and the process-wide active-model
marker) becomes explicit state threaded through the handler, and the
external generative-text API becomes an oracle parameter
`gen : String -> String -> Except String String` mapping a model name
and a prompt either to the raw reply text or to the message of the
exception the call raised.

Modelling conventions:
  - Python floats from time.time are modelled as integer timestamps.
  - JSON numbers are modelled as integers; payloads carrying fractional
    or exponent literals are outside the model.
  - Python str.strip and the regex class of whitespace are modelled with
    one whitespace character set covering the ASCII and Latin-1
    whitespace plus the common Unicode spaces.
  - repr of strings is modelled with the usual quote choice and the
    common escapes; exotic control characters are kept verbatim.
-/

/-! ## Character helpers -/

def btChar : Char := Char.ofNat 96

def lbChar : Char := Char.ofNat 123

def rbChar : Char := Char.ofNat 125

def quoteChar : Char := Char.ofNat 34

def aposChar : Char := Char.ofNat 39

def bslashChar : Char := Char.ofNat 92

/-- Whitespace characters recognised by Python str.strip and by the
regex class used in extract_json. -/
def pySpaceChars : List Char :=
  [' ', '\t', '\n', '\r', Char.ofNat 11, Char.ofNat 12,
   Char.ofNat 28, Char.ofNat 29, Char.ofNat 30, Char.ofNat 31,
   Char.ofNat 133, Char.ofNat 160, Char.ofNat 8192, Char.ofNat 8193,
   Char.ofNat 8194, Char.ofNat 8195, Char.ofNat 8196, Char.ofNat 8197,
   Char.ofNat 8198, Char.ofNat 8199, Char.ofNat 8200, Char.ofNat 8201,
   Char.ofNat 8202, Char.ofNat 8232, Char.ofNat 8233, Char.ofNat 8239,
   Char.ofNat 8287, Char.ofNat 12288]

def isPySpace (c : Char) : Bool := pySpaceChars.contains c

/-- Characters stripped by the bullet-marker strip in coerce_list:
Python line.strip of the two-character set dash and space. -/
def isDashSpace (c : Char) : Bool := c == '-' || c == ' '

/-- Strip characters satisfying p from both ends of a character list,
the semantics of Python str.strip. -/
def stripBoth (p : Char → Bool) (l : List Char) : List Char :=
  ((l.dropWhile p).reverse.dropWhile p).reverse

/-- Python str.strip with no argument. -/
def pyStrip (s : String) : String := ⟨stripBoth isPySpace s.data⟩

/-- Python str.strip with argument dash-space. -/
def stripDashSpace (s : String) : String := ⟨stripBoth isDashSpace s.data⟩

/-- Line-boundary characters of Python str.splitlines. -/
def lineBreakChars : List Char :=
  ['\n', '\r', Char.ofNat 11, Char.ofNat 12, Char.ofNat 28,
   Char.ofNat 29, Char.ofNat 30, Char.ofNat 133, Char.ofNat 8232,
   Char.ofNat 8233]

def splitlinesGo : List Char → List Char → List String
  | [], acc => if acc = [] then [] else [String.mk acc.reverse]
  | '\r' :: '\n' :: rest, acc => String.mk acc.reverse :: splitlinesGo rest []
  | c :: rest, acc =>
    if lineBreakChars.contains c then String.mk acc.reverse :: splitlinesGo rest []
    else splitlinesGo rest (c :: acc)

/-- Python str.splitlines. -/
def splitlines (s : String) : List String := splitlinesGo s.data []

/-! ## JSON values and the Python str of a parsed payload -/

/-- A value produced by json.loads. Numbers are restricted to integers. -/
inductive JValue where
  | null : JValue
  | bool (b : Bool) : JValue
  | num (n : Int) : JValue
  | str (s : String) : JValue
  | arr (items : List JValue) : JValue
  | obj (pairs : List (String × JValue)) : JValue

def pyReprEscape (q : Char) (c : Char) : String :=
  if c = bslashChar then ⟨[bslashChar, bslashChar]⟩
  else if c = q then ⟨[bslashChar, q]⟩
  else if c = '\n' then ⟨[bslashChar, 'n']⟩
  else if c = '\r' then ⟨[bslashChar, 'r']⟩
  else if c = '\t' then ⟨[bslashChar, 't']⟩
  else ⟨[c]⟩

/-- Python repr of a string: single quotes unless the string holds a
single quote and no double quote. -/
def pyReprStr (s : String) : String :=
  let q := if s.data.contains aposChar && !(s.data.contains quoteChar)
           then quoteChar else aposChar
  ⟨[q]⟩ ++ String.join (s.data.map (pyReprEscape q)) ++ ⟨[q]⟩

mutual
/-- Python str (first flag false) and repr (first flag true) of a
parsed JSON value. -/
def pyShow : Bool → JValue → String
  | _, JValue.null => "None"
  | _, JValue.bool b => if b then "True" else "False"
  | _, JValue.num n => toString n
  | r, JValue.str s => if r then pyReprStr s else s
  | _, JValue.arr items => "[" ++ pyShowItems items ++ "]"
  | _, JValue.obj pairs => ⟨[lbChar]⟩ ++ pyShowPairs pairs ++ ⟨[rbChar]⟩
def pyShowItems : List JValue → String
  | [] => ""
  | [x] => pyShow true x
  | x :: xs => pyShow true x ++ ", " ++ pyShowItems xs
def pyShowPairs : List (String × JValue) → String
  | [] => ""
  | [(k, v)] => pyReprStr k ++ ": " ++ pyShow true v
  | (k, v) :: ps => pyReprStr k ++ ": " ++ pyShow true v ++ ", " ++ pyShowPairs ps
end

/-- Python str applied to a parsed JSON value. -/
def pyStr (v : JValue) : String := pyShow false v

/-- dict.get with the last binding winning, the Python dict semantics
for duplicate keys produced by json.loads. -/
def objGet? (pairs : List (String × JValue)) (k : String) : Option JValue :=
  pairs.foldl (fun acc p => if p.1 = k then some p.2 else acc) none

def objGetD (pairs : List (String × JValue)) (k : String) (d : JValue) : JValue :=
  (objGet? pairs k).getD d

/-! ## coerce_list and the response normaliser -/

/-- Translation of coerce_list from src/backend/main.py lines 131-136. -/
def coerce_list : JValue → List String
  | JValue.arr items =>
      (items.map (fun item => pyStrip (pyStr item))).filter (fun s => s != "")
  | JValue.str s =>
      ((splitlines s).filter (fun line => pyStrip line != "")).map
        (fun line => pyStrip (stripDashSpace line))
  | _ => []

structure SectionFeedback where
  strengths : List String
  weaknesses : List String
  rewrites : List String
  keywords : List String
deriving DecidableEq

structure ReviewResponse where
  overview : String
  match_level : String
  sections : List (String × SectionFeedback)
  top_fixes : List String
  jd_keywords : List String
  insertion_guidance : List String
  missing_info : List String
  resume_outline : List String
deriving DecidableEq

/-- Translation of normalize_section, main.py lines 139-148: the nested
section mapping defaults to empty on absence or wrong type. -/
def normalize_section (pairs : List (String × JValue)) (key : String) :
    SectionFeedback :=
  let sect : List (String × JValue) :=
    match objGet? pairs "sections" with
    | some (JValue.obj spairs) =>
      match objGet? spairs key with
      | some (JValue.obj fpairs) => fpairs
      | _ => []
    | _ => []
  { strengths := coerce_list (objGetD sect "strengths" (JValue.arr []))
    weaknesses := coerce_list (objGetD sect "weaknesses" (JValue.arr []))
    rewrites := coerce_list (objGetD sect "rewrites" (JValue.arr []))
    keywords := coerce_list (objGetD sect "keywords" (JValue.arr [])) }

/-- Translation of normalize_response, main.py lines 151-181. A payload
that is not a mapping raises the attribute error that payload.get
raises in Python. -/
def normalize_response (payload : JValue) (require_content : Bool) :
    Except String ReviewResponse :=
  match payload with
  | JValue.obj pairs =>
    let overview := pyStrip (pyStr (objGetD pairs "overview" (JValue.str "")))
    let match_level := pyStrip (pyStr (objGetD pairs "match_level" (JValue.str "")))
    let top_fixes := coerce_list (objGetD pairs "top_fixes" (JValue.arr []))
    let sections := [
      ("profile_summary", normalize_section pairs "profile_summary"),
      ("experience", normalize_section pairs "experience"),
      ("projects", normalize_section pairs "projects"),
      ("skills", normalize_section pairs "skills"),
      ("education", normalize_section pairs "education")]
    let jd_keywords := coerce_list (objGetD pairs "jd_keywords" (JValue.arr []))
    let insertion_guidance :=
      coerce_list (objGetD pairs "insertion_guidance" (JValue.arr []))
    let missing_info := coerce_list (objGetD pairs "missing_info" (JValue.arr []))
    let resume_outline := coerce_list (objGetD pairs "resume_outline" (JValue.arr []))
    if require_content = true ∧ (overview = "" ∨ match_level = "" ∨ top_fixes = [])
    then Except.error "Missing required fields in model output"
    else Except.ok
      { overview := overview
        match_level := match_level
        sections := sections
        top_fixes := top_fixes.take 5
        jd_keywords := jd_keywords
        insertion_guidance := insertion_guidance
        missing_info := missing_info
        resume_outline := resume_outline }
  | _ => Except.error "object has no attribute get"

/-! ## extract_json -/

def firstIdxAux (p : Char → Bool) : List Char → Nat → Option Nat
  | [], _ => none
  | c :: rest, i => if p c then some i else firstIdxAux p rest (i + 1)

def lastIdxAux (p : Char → Bool) : List Char → Nat → Option Nat → Option Nat
  | [], _, best => best
  | c :: rest, i, best =>
    lastIdxAux p rest (i + 1) (if p c then some i else best)

/-- The span matched by the regex lbrace dot-star rbrace with DOTALL:
from the first opening brace to the last closing brace, provided the
last closing brace lies strictly after the first opening brace. -/
def braceSpanL (cs : List Char) : Option (List Char) :=
  match firstIdxAux (fun c => c == lbChar) cs 0,
        lastIdxAux (fun c => c == rbChar) cs 0 none with
  | some i, some j =>
    if i < j then some ((cs.drop i).take (j - i + 1)) else none
  | _, _ => none

/-- The two re.sub calls of extract_json, applied when the stripped
text starts with a triple backtick: drop the leading fence with its
optional json tag and following whitespace, then drop a trailing fence
with the whitespace before it. -/
def fenceStripL (cleaned : List Char) : List Char :=
  let r := cleaned.drop 3
  let r := if r.take 4 = ['j', 's', 'o', 'n'] then r.drop 4 else r
  let r := r.dropWhile isPySpace
  let rr := r.reverse
  if rr.take 3 = [btChar, btChar, btChar]
  then ((rr.drop 3).dropWhile isPySpace).reverse
  else r

/-- The cleaned text of extract_json before the brace search. -/
def cleaned_of (text : String) : List Char :=
  let c := stripBoth isPySpace text.data
  if c.take 3 = [btChar, btChar, btChar] then fenceStripL c else c

/-- Translation of extract_json, main.py lines 120-128. -/
def extract_json (text : String) : String :=
  match braceSpanL (cleaned_of text) with
  | some span => ⟨span⟩
  | none => ⟨cleaned_of text⟩

/-! ## json.loads -/

def isJsonWs (c : Char) : Bool :=
  c == ' ' || c == '\t' || c == '\n' || c == '\r'

def skipWs (cs : List Char) : List Char := cs.dropWhile isJsonWs

def isDigitCh (c : Char) : Bool := '0' ≤ c && c ≤ '9'

def hexVal? (c : Char) : Option Nat :=
  if '0' ≤ c ∧ c ≤ '9' then some (c.toNat - 48)
  else if 'a' ≤ c ∧ c ≤ 'f' then some (c.toNat - 87)
  else if 'A' ≤ c ∧ c ≤ 'F' then some (c.toNat - 55)
  else none

def hex4? (a b c d : Char) : Option Nat :=
  match hexVal? a, hexVal? b, hexVal? c, hexVal? d with
  | some x, some y, some z, some w => some (((x * 16 + y) * 16 + z) * 16 + w)
  | _, _, _, _ => none

/-- Body of a JSON string literal after the opening quote. -/
def parseStringGo : List Char → List Char → Except String (String × List Char)
  | [], _ => Except.error "Unterminated string starting at"
  | c :: rest, acc =>
    if c == quoteChar then Except.ok (⟨acc.reverse⟩, rest)
    else if c == bslashChar then
      match rest with
      | [] => Except.error "Unterminated string starting at"
      | e :: rest2 =>
        if e == quoteChar then parseStringGo rest2 (quoteChar :: acc)
        else if e == bslashChar then parseStringGo rest2 (bslashChar :: acc)
        else if e == '/' then parseStringGo rest2 ('/' :: acc)
        else if e == 'b' then parseStringGo rest2 (Char.ofNat 8 :: acc)
        else if e == 'f' then parseStringGo rest2 (Char.ofNat 12 :: acc)
        else if e == 'n' then parseStringGo rest2 ('\n' :: acc)
        else if e == 'r' then parseStringGo rest2 ('\r' :: acc)
        else if e == 't' then parseStringGo rest2 ('\t' :: acc)
        else if e == 'u' then
          match rest2 with
          | h1 :: h2 :: h3 :: h4 :: rest3 =>
            match hex4? h1 h2 h3 h4 with
            | some n => parseStringGo rest3 (Char.ofNat n :: acc)
            | none => Except.error "Invalid unicode escape"
          | _ => Except.error "Invalid unicode escape"
        else Except.error "Invalid escape"
    else if c.toNat < 32 then Except.error "Invalid control character at"
    else parseStringGo rest (c :: acc)

def digitsToNat (ds : List Char) : Nat :=
  ds.foldl (fun acc c => acc * 10 + (c.toNat - 48)) 0

/-- The unsigned integer part of a JSON number: a single zero or a
nonzero digit followed by digits. -/
def parseUIntCore : List Char → Except String (Nat × List Char)
  | [] => Except.error "Expecting value"
  | c :: rest =>
    if c == '0' then Except.ok (0, rest)
    else if isDigitCh c then
      Except.ok (digitsToNat (c :: rest.takeWhile isDigitCh),
                 rest.dropWhile isDigitCh)
    else Except.error "Expecting value"

def parseIntCore : List Char → Except String (Int × List Char)
  | '-' :: rest =>
    match parseUIntCore rest with
    | Except.ok (n, r) => Except.ok (-(n : Int), r)
    | Except.error e => Except.error e
  | cs =>
    match parseUIntCore cs with
    | Except.ok (n, r) => Except.ok ((n : Int), r)
    | Except.error e => Except.error e

/-- A JSON number; fractional or exponent parts are outside the model. -/
def parseNumber (cs : List Char) : Except String (JValue × List Char) :=
  match parseIntCore cs with
  | Except.error e => Except.error e
  | Except.ok (n, r) =>
    match r with
    | c :: _ =>
      if c == '.' || c == 'e' || c == 'E'
      then Except.error "Float values are outside this model"
      else Except.ok (JValue.num n, r)
    | [] => Except.ok (JValue.num n, r)

mutual
def parseValue : Nat → List Char → Except String (JValue × List Char)
  | 0, _ => Except.error "Expecting value"
  | _ + 1, [] => Except.error "Expecting value"
  | _ + 1, 'n' :: 'u' :: 'l' :: 'l' :: rest => Except.ok (JValue.null, rest)
  | _ + 1, 't' :: 'r' :: 'u' :: 'e' :: rest =>
    Except.ok (JValue.bool true, rest)
  | _ + 1, 'f' :: 'a' :: 'l' :: 's' :: 'e' :: rest =>
    Except.ok (JValue.bool false, rest)
  | fuel + 1, '[' :: rest => parseItems fuel (skipWs rest) []
  | fuel + 1, c :: rest =>
    if c == quoteChar then
      match parseStringGo rest [] with
      | Except.ok (s, r) => Except.ok (JValue.str s, r)
      | Except.error e => Except.error e
    else if c == lbChar then parseMembers fuel (skipWs rest) []
    else if c == '-' || isDigitCh c then parseNumber (c :: rest)
    else Except.error "Expecting value"
def parseItems : Nat → List Char → List JValue →
    Except String (JValue × List Char)
  | 0, _, _ => Except.error "Expecting value"
  | fuel + 1, cs, acc =>
    match cs with
    | ']' :: rest =>
      if acc.isEmpty then Except.ok (JValue.arr [], rest)
      else parseItemsCont fuel cs acc
    | _ => parseItemsCont fuel cs acc
def parseItemsCont : Nat → List Char → List JValue →
    Except String (JValue × List Char)
  | 0, _, _ => Except.error "Expecting value"
  | fuel + 1, cs, acc =>
    match parseValue fuel cs with
    | Except.error e => Except.error e
    | Except.ok (v, r1) =>
      match skipWs r1 with
      | ']' :: r => Except.ok (JValue.arr (acc ++ [v]), r)
      | ',' :: r => parseItems fuel (skipWs r) (acc ++ [v])
      | _ => Except.error "Expecting comma delimiter"
def parseMembers : Nat → List Char → List (String × JValue) →
    Except String (JValue × List Char)
  | 0, _, _ => Except.error "Expecting property name enclosed in double quotes"
  | fuel + 1, cs, acc =>
    match cs with
    | c :: rest =>
      if c == rbChar && acc.isEmpty then Except.ok (JValue.obj [], rest)
      else if c == quoteChar then
        match parseStringGo rest [] with
        | Except.error e => Except.error e
        | Except.ok (k, r1) =>
          match skipWs r1 with
          | ':' :: r2 =>
            match parseValue fuel (skipWs r2) with
            | Except.error e => Except.error e
            | Except.ok (v, r3) =>
              match skipWs r3 with
              | ',' :: r4 => parseMembers fuel (skipWs r4) (acc ++ [(k, v)])
              | c2 :: r4 =>
                if c2 == rbChar then Except.ok (JValue.obj (acc ++ [(k, v)]), r4)
                else Except.error "Expecting comma delimiter"
              | [] => Except.error "Expecting comma delimiter"
          | _ => Except.error "Expecting colon delimiter"
      else Except.error "Expecting property name enclosed in double quotes"
    | [] => Except.error "Expecting property name enclosed in double quotes"
end

/-- Model of json.loads restricted to integer numbers. -/
def json_loads (s : String) : Except String JValue :=
  let cs := skipWs s.data
  match parseValue (4 * cs.length + 16) cs with
  | Except.error e => Except.error e
  | Except.ok (v, rest) =>
    if skipWs rest = [] then Except.ok v else Except.error "Extra data"

def isOkE {ε α : Type} : Except ε α → Bool
  | Except.ok _ => true
  | Except.error _ => false

/-! ## Substring test and the model-invocation loop -/

/-- Python substring containment: pat in s. -/
def hasSub (s pat : String) : Bool :=
  decide (List.IsInfix pat.data s.data)

def noModelMsg : String :=
  "No available Gemini model found. Set GEMINI_MODEL in the .env file."

def parseFailMsg : String :=
  "AI response could not be parsed. Please try again."

/-- The detail string of the terminal 500 error, main.py lines 204-209:
chosen from the last recorded error of the whole run. -/
def mkDetail (lastError : Option String) : String :=
  match lastError with
  | some m =>
    if hasSub m "not found" || hasSub m "not supported" then noModelMsg
    else parseFailMsg
  | none => parseFailMsg

structure HTTPError where
  status : Nat
  detail : String
deriving DecidableEq

/-- The mutable context of one call_gemini_with_retry run: the
process-wide active-model marker, the local last_error variable, and an
instrumentation trace of the models invoked. -/
structure LoopState where
  active : Option String
  lastError : Option String
  calls : List String
deriving DecidableEq

/-- The body of the loop for one candidate, main.py lines 190-195:
generate, extract, parse, normalise. -/
def tryModel (gen : String → String → Except String String) (rc : Bool)
    (prompt model : String) : Except String ReviewResponse :=
  match gen model prompt with
  | Except.error msg => Except.error msg
  | Except.ok raw =>
    match json_loads (extract_json raw) with
    | Except.error msg => Except.error msg
    | Except.ok payload => normalize_response payload rc

/-- Whether the candidate reaches line 194 of main.py on this prompt:
generation succeeded and json.loads succeeded, the point where the
active-model marker is assigned. -/
def modelParses (gen : String → String → Except String String)
    (prompt model : String) : Bool :=
  match gen model prompt with
  | Except.error _ => false
  | Except.ok raw => isOkE (json_loads (extract_json raw))

/-- The inner candidate loop of call_gemini_with_retry for one attempt,
main.py lines 188-202. The active-model marker is assigned as soon as
json.loads succeeds, before normalisation; every failure is recorded in
last_error and the loop moves to the next candidate. -/
def tryCandidates (gen : String → String → Except String String) (rc : Bool)
    (prompt : String) : List String → LoopState →
    Option ReviewResponse × LoopState
  | [], s => (none, s)
  | m :: rest, s =>
    let s1 : LoopState := { s with calls := s.calls ++ [m] }
    match gen m prompt with
    | Except.error msg =>
      tryCandidates gen rc prompt rest { s1 with lastError := some msg }
    | Except.ok raw =>
      match json_loads (extract_json raw) with
      | Except.error msg =>
        tryCandidates gen rc prompt rest { s1 with lastError := some msg }
      | Except.ok payload =>
        let s2 : LoopState := { s1 with active := some m }
        match normalize_response payload rc with
        | Except.error msg =>
          tryCandidates gen rc prompt rest { s2 with lastError := some msg }
        | Except.ok resp => (some resp, s2)

/-- The stricter instruction appended to the prompt between attempts,
main.py lines 211-215. -/
def strictSuffix : String :=
  "\n\nReturn ONLY valid JSON with keys overview, match_level, sections, top_fixes, jd_keywords, insertion_guidance, missing_info, resume_outline. Do not wrap in code fences."

/-- The attempt loop of call_gemini_with_retry; attemptsLeft counts the
remaining attempts including the current one: on failure of the inner
candidate loop the last attempt raises the terminal 500 error, and any
earlier attempt appends the stricter instruction and retries. -/
def goAttempts (gen : String → String → Except String String)
    (cands : List String) (rc : Bool) :
    Nat → String → LoopState → Except HTTPError ReviewResponse × LoopState
  | 0, prompt, s =>
    match tryCandidates gen rc prompt cands s with
    | (some resp, s1) => (Except.ok resp, s1)
    | (none, s1) => (Except.error ⟨500, mkDetail s1.lastError⟩, s1)
  | 1, prompt, s =>
    match tryCandidates gen rc prompt cands s with
    | (some resp, s1) => (Except.ok resp, s1)
    | (none, s1) => (Except.error ⟨500, mkDetail s1.lastError⟩, s1)
  | n + 2, prompt, s =>
    match tryCandidates gen rc prompt cands s with
    | (some resp, s1) => (Except.ok resp, s1)
    | (none, s1) => goAttempts gen cands rc (n + 1) (prompt ++ strictSuffix) s1

/-- Translation of call_gemini_with_retry, main.py lines 184-215. -/
def call_gemini_with_retry (gen : String → String → Except String String)
    (cands : List String) (prompt : String) (retries : Nat) (rc : Bool)
    (s : LoopState) : Except HTTPError ReviewResponse × LoopState :=
  goAttempts gen cands rc (retries + 1) prompt s

/-! ## Rate limiter -/

def RATE_LIMIT : Nat := 30

def RATE_WINDOW_SECONDS : Int := 60

/-- The lazy prune of expired timestamps, main.py lines 71-72: pop from
the left while the head is older than the window. -/
def pruneQueue (queue : List Int) (now : Int) : List Int :=
  queue.dropWhile (fun t => decide (RATE_WINDOW_SECONDS < now - t))

/-- Translation of enforce_rate_limit, main.py lines 68-75, returning
the outcome together with the queue left in the shared table (the prune
persists even when the call is rejected). -/
def enforce_rate_limit (queue : List Int) (now : Int) :
    Except HTTPError Unit × List Int :=
  let pruned := pruneQueue queue now
  if RATE_LIMIT ≤ pruned.length then
    (Except.error ⟨429, "Rate limit exceeded. Try again soon."⟩, pruned)
  else (Except.ok (), pruned ++ [now])

/-- Iterate enforce_rate_limit over a sequence of call times against one
client queue, returning the admission verdicts and the final queue. -/
def runCalls : List Int → List Int → List Bool × List Int
  | q, [] => ([], q)
  | q, t :: ts =>
    let r := enforce_rate_limit q t
    let rest := runCalls r.2 ts
    (isOkE r.1 :: rest.1, rest.2)

/-! ## The request handlers -/

/-- The process-wide mutable state read and written by one request:
the per-client rate-limit table and the active-model marker. -/
structure ServerState where
  requestLog : List (String × List Int)
  activeModel : Option String

def logGet (log : List (String × List Int)) (ip : String) : List Int :=
  (log.lookup ip).getD []

def logSet (log : List (String × List Int)) (ip : String) (q : List Int) :
    List (String × List Int) :=
  (ip, q) :: log

/-- The prompt built when the resume is empty, main.py lines 231-248. -/
def outline_prompt (role_title job_description : String) : String :=
  "\nYou are an expert Resume Reviewer for software and tech roles.\nThe user has only provided a role title and no resume.\nProvide a concise outline they can fill in and request missing info.\n\nRole Title: " ++ role_title ++ "\nJob Description: " ++ (if job_description = "" then "Not provided" else job_description) ++ "\n\nReturn JSON ONLY with keys:\noverview: 1-2 sentences explaining you need a resume to review.\nmatch_level: Low\nsections: include keys profile_summary, experience, projects, skills, education. Each section should have arrays for strengths, weaknesses, rewrites, keywords (empty arrays are OK).\ntop_fixes: 3-5 bullets on what to gather next.\njd_keywords: 5-10 important keywords if JD provided, else empty array.\ninsertion_guidance: where to place those keywords if a resume were provided.\nmissing_info: list of details you need from the user.\nresume_outline: bullet outline for a tech resume they can fill in.\n"

/-- The full-review prompt, main.py lines 251-282. -/
def full_prompt (role_title job_description resume_text : String) : String :=
  "\nYou are an expert Resume Reviewer for software and tech roles.\nAnalyze the resume (and job description if provided) and give clear, practical, prioritized feedback.\n\nGoals:\n- Evaluate match to target role.\n- Improve clarity, impact, and brevity.\n- Optimize for ATS.\n- Suggest concrete rewrites (do not invent experience).\n\nInstructions:\n- Start with a short overview (1-2 sentences) and match level (Low/Medium/High).\n- Then provide section-by-section feedback with headings: Profile / Summary, Experience, Projects, Skills, Education / Certifications.\n- For each section: strengths, weaknesses, example rewrites, keywords for ATS.\n- If resume is short/junior, suggest projects/coursework to add.\n- If JD provided: list top 5-10 skills/keywords and show how to insert them.\n\nRole Title: " ++ (if role_title = "" then "Not provided" else role_title) ++ "\nJob Description: " ++ (if job_description = "" then "Not provided" else job_description) ++ "\nResume: " ++ resume_text ++ "\n\nReturn JSON ONLY with keys:\noverview: brief overview (2-3 sentences).\nmatch_level: Low/Medium/High.\nsections: object with keys profile_summary, experience, projects, skills, education.\nEach section has arrays: strengths, weaknesses, rewrites, keywords.\ntop_fixes: Top 5 changes to make next, ordered by impact.\njd_keywords: list of keywords from the JD (empty if no JD).\ninsertion_guidance: bullets showing where/how to insert JD keywords.\nmissing_info: details to request if resume lacks specifics.\nresume_outline: empty array unless resume is missing.\n"

/-- Translation of the review_resume handler, main.py lines 218-284.
Returns the HTTP outcome, the server state after the request, and the
trace of model invocations the request performed. -/
def review_resume (gen : String → String → Except String String)
    (cands : List String) (st : ServerState) (client_ip : String)
    (now : Int) (resume job_description role_title : String) :
    Except HTTPError ReviewResponse × ServerState × List String :=
  match enforce_rate_limit (logGet st.requestLog client_ip) now with
  | (Except.error e, q1) =>
    (Except.error e, ⟨logSet st.requestLog client_ip q1, st.activeModel⟩, [])
  | (Except.ok _, q1) =>
    let log1 := logSet st.requestLog client_ip q1
    let resume_text := pyStrip resume
    let jd := pyStrip job_description
    let role := pyStrip role_title
    if resume_text = "" ∧ role = "" then
      (Except.error ⟨400, "Provide a resume or a target role title."⟩,
       ⟨log1, st.activeModel⟩, [])
    else if resume_text = "" then
      let r := call_gemini_with_retry gen cands (outline_prompt role jd) 2
                 false ⟨st.activeModel, none, []⟩
      (r.1, ⟨log1, r.2.active⟩, r.2.calls)
    else
      let r := call_gemini_with_retry gen cands (full_prompt role jd resume_text)
                 2 true ⟨st.activeModel, none, []⟩
      (r.1, ⟨log1, r.2.active⟩, r.2.calls)

/-- Translation of the tailor_alias handler, main.py lines 287-289: it
delegates to review_resume unchanged. -/
def tailor_alias (gen : String → String → Except String String)
    (cands : List String) (st : ServerState) (client_ip : String)
    (now : Int) (resume job_description role_title : String) :
    Except HTTPError ReviewResponse × ServerState × List String :=
  review_resume gen cands st client_ip now resume job_description role_title


/-! ## Definitions used by the claim statements -/

/-- The list-coercion rule in the words of the amended claim C5: a list
is stringified and trimmed elementwise with empty results dropped; a
string is split into lines, whitespace-only lines are dropped, and each
remaining line has dash and space characters stripped from both ends
and is then trimmed, which can leave an empty string when a line
consists only of dashes and spaces; any other value gives the empty
list. -/
def coerce_list_amended_spec : JValue → List String
  | JValue.arr items =>
      (items.map (fun item => pyStrip (pyStr item))).filter (fun s => s != "")
  | JValue.str s =>
      ((splitlines s).filter (fun line => pyStrip line != "")).map
        (fun line => pyStrip (stripDashSpace line))
  | _ => []

def emptyFeedback : SectionFeedback := ⟨[], [], [], []⟩

/-- The reply of the second candidate in the claim C1 scenario. -/
def scenarioJSON : String :=
  "\x7b\"overview\": \"Solid resume\", \"match_level\": \"High\", \"top_fixes\": [\"Add metrics\"]\x7d"

/-- Oracle for the claim C1 scenario: the first candidate answers with
unparsable prose, the second with valid JSON. -/
def genScenario : String → String → Except String String := fun m _ =>
  if m = "m1" then Except.ok "I cannot answer that"
  else if m = "m2" then Except.ok scenarioJSON
  else Except.error "model q not found"

/-- The normalised response of the claim C1 scenario. -/
def scenarioResponse : ReviewResponse :=
  { overview := "Solid resume"
    match_level := "High"
    sections := [("profile_summary", emptyFeedback), ("experience", emptyFeedback),
      ("projects", emptyFeedback), ("skills", emptyFeedback),
      ("education", emptyFeedback)]
    top_fixes := ["Add metrics"]
    jd_keywords := []
    insertion_guidance := []
    missing_info := []
    resume_outline := [] }

/-- Oracle whose output parses as the empty JSON object and therefore
fails validation on the full-review path. -/
def genEmptyObj : String → String → Except String String :=
  fun _ _ => Except.ok "\x7b\x7d"

/-- Oracle for the claim C2 counterexample: the first candidate returns
unparsable text, the second raises an availability error. -/
def genMixed : String → String → Except String String := fun m _ =>
  if m = "m1" then Except.ok "garbage" else Except.error "models/x is not found"

/-- Oracle on which every candidate raises a model-availability error. -/
def genNotFound : String → String → Except String String :=
  fun _ _ => Except.error "model not found"

/-- Oracle on which every candidate raises a non-availability error. -/
def genBoom : String → String → Except String String :=
  fun _ _ => Except.error "boom"

/-- Oracle answering only a match_level field, accepted when content is
not required. -/
def genHighOnly : String → String → Except String String :=
  fun _ _ => Except.ok "\x7b\"match_level\": \"High\"\x7d"

/-! ## General helper lemmas -/

theorem dropWhile_eq_self_of_all {α : Type} (p : α → Bool) :
    ∀ l : List α, (∀ a ∈ l, p a = false) → l.dropWhile p = l
  | [], _ => rfl
  | a :: l, h => by
    have ha : p a = false := h a (List.mem_cons_self a l)
    simp [List.dropWhile_cons, ha]

/-! ## Rate limiter lemmas -/

theorem pruneQueue_eq_self (q : List Int) (now : Int)
    (h : ∀ a ∈ q, now - a ≤ RATE_WINDOW_SECONDS) : pruneQueue q now = q := by
  apply dropWhile_eq_self_of_all
  intro a ha
  simpa [decide_eq_false_iff_not] using not_lt.mpr (h a ha)

theorem enforce_allows (q : List Int) (now : Int)
    (h : (pruneQueue q now).length < RATE_LIMIT) :
    enforce_rate_limit q now = (Except.ok (), pruneQueue q now ++ [now]) := by
  unfold enforce_rate_limit
  rw [if_neg (by omega)]

theorem enforce_reject (q : List Int) (now : Int)
    (h : RATE_LIMIT ≤ (pruneQueue q now).length) :
    enforce_rate_limit q now =
      (Except.error ⟨429, "Rate limit exceeded. Try again soon."⟩,
       pruneQueue q now) := by
  unfold enforce_rate_limit
  rw [if_pos h]

theorem runCalls_admit_aux : ∀ (ts q : List Int),
    (∀ a ∈ q, ∀ t ∈ ts, t - a ≤ RATE_WINDOW_SECONDS) →
    (∀ a ∈ ts, ∀ b ∈ ts, b - a ≤ RATE_WINDOW_SECONDS) →
    q.length + ts.length ≤ RATE_LIMIT →
    runCalls q ts = (List.replicate ts.length true, q ++ ts) := by
  intro ts
  induction ts with
  | nil => intro q _ _ _; simp [runCalls]
  | cons t ts ih =>
    intro q h1 h2 hlen
    have hprune : pruneQueue q t = q :=
      pruneQueue_eq_self q t (fun a ha => h1 a ha t (List.mem_cons_self t ts))
    have hadm : (pruneQueue q t).length < RATE_LIMIT := by
      rw [hprune]
      simp only [List.length_cons] at hlen
      omega
    have hrec := ih (q ++ [t])
      (by
        intro a ha u hu
        rcases List.mem_append.mp ha with hq | ht
        · exact h1 a hq u (List.mem_cons_of_mem t hu)
        · have : a = t := by simpa using ht
          subst this
          exact h2 a (List.mem_cons_self a ts) u (List.mem_cons_of_mem a hu))
      (by
        intro a ha b hb
        exact h2 a (List.mem_cons_of_mem t ha) b (List.mem_cons_of_mem t hb))
      (by simp at hlen ⊢; omega)
    simp only [runCalls, enforce_allows q t hadm, hprune, hrec, isOkE]
    simp [List.replicate_succ]

/-- Claim C3: for every client, a sequence of at most 30 calls inside a
trailing 60-second window is admitted in full with each admitted call
recording its timestamp; the 31st call inside the window is rejected
with the 429 throttling error and is not recorded; and once the window
slides past the oldest recorded timestamp exactly one unit of capacity
is freed: the oldest entry alone is pruned and the call is admitted. -/
theorem c3_rate_limiter :
    (∀ ts : List Int, ts.length ≤ RATE_LIMIT →
      (∀ a ∈ ts, ∀ b ∈ ts, b - a ≤ RATE_WINDOW_SECONDS) →
      runCalls [] ts = (List.replicate ts.length true, ts))
    ∧ (∀ (ts : List Int) (u : Int), ts.length = RATE_LIMIT →
      (∀ a ∈ ts, u - a ≤ RATE_WINDOW_SECONDS) →
      enforce_rate_limit ts u =
        (Except.error ⟨429, "Rate limit exceeded. Try again soon."⟩, ts))
    ∧ (∀ (t0 : Int) (rest : List Int) (u : Int),
      (t0 :: rest).length = RATE_LIMIT →
      RATE_WINDOW_SECONDS < u - t0 →
      (∀ a ∈ rest, u - a ≤ RATE_WINDOW_SECONDS) →
      enforce_rate_limit (t0 :: rest) u = (Except.ok (), rest ++ [u])) := by
  refine ⟨?_, ?_, ?_⟩
  · intro ts hlen hwin
    have := runCalls_admit_aux ts [] (by intro a ha; simp at ha) hwin
      (by simpa using hlen)
    simpa using this
  · intro ts u hlen hwin
    have hprune : pruneQueue ts u = ts := pruneQueue_eq_self ts u hwin
    rw [enforce_reject ts u (by rw [hprune]; omega), hprune]
  · intro t0 rest u hlen hold hwin
    have hprune : pruneQueue (t0 :: rest) u = rest := by
      unfold pruneQueue
      rw [List.dropWhile_cons]
      simp only [decide_eq_true_eq]
      rw [if_pos hold]
      exact dropWhile_eq_self_of_all _ rest
        (fun a ha => by
          simpa [decide_eq_false_iff_not] using not_lt.mpr (hwin a ha))
    have hlen29 : (pruneQueue (t0 :: rest) u).length < RATE_LIMIT := by
      rw [hprune]
      simp only [List.length_cons] at hlen
      unfold RATE_LIMIT at hlen ⊢
      omega
    rw [enforce_allows (t0 :: rest) u hlen29, hprune]

/-- Witness for c3_rate_limiter at concrete timestamp sequences. -/
theorem c3_rate_limiter_witness :
    runCalls [] (List.replicate 30 (0 : Int)) =
      (List.replicate 30 true, List.replicate 30 0)
    ∧ enforce_rate_limit (List.replicate 30 (0 : Int)) 50 =
      (Except.error ⟨429, "Rate limit exceeded. Try again soon."⟩,
       List.replicate 30 0)
    ∧ enforce_rate_limit ((0 : Int) :: List.replicate 29 50) 70 =
      (Except.ok (), List.replicate 29 (50 : Int) ++ [70]) := by
  refine ⟨?_, ?_, ?_⟩
  · have := c3_rate_limiter.1 (List.replicate 30 (0 : Int)) (by simp [RATE_LIMIT])
      (by decide)
    simpa using this
  · exact c3_rate_limiter.2.1 (List.replicate 30 (0 : Int)) 50
      (by simp [RATE_LIMIT]) (by decide)
  · exact c3_rate_limiter.2.2 0 (List.replicate 29 50) 70
      (by simp [RATE_LIMIT]) (by decide) (by decide)

/-! ## Strip lemmas -/

theorem dropWhile_head?_false {α : Type} (p : α → Bool) (l : List α) :
    ∀ a, (l.dropWhile p).head? = some a → p a = false := by
  induction l with
  | nil => intro a h; simp [List.dropWhile] at h
  | cons b l ih =>
    intro a h
    rw [List.dropWhile_cons] at h
    by_cases hb : p b = true
    · rw [if_pos hb] at h
      exact ih a h
    · rw [if_neg hb] at h
      simp only [List.head?_cons, Option.some.injEq] at h
      subst h
      simpa using hb

theorem getLast?_cons_of_ne_nil {α : Type} (b : α) (l : List α) (h : l ≠ []) :
    (b :: l).getLast? = l.getLast? := by
  have hs : l.getLast?.isSome = true := List.getLast?_isSome.mpr h
  have happ : (([b] ++ l)).getLast? = l.getLast?.or [b].getLast? :=
    List.getLast?_append
  cases hgl : l.getLast? with
  | none => rw [hgl] at hs; simp at hs
  | some x => simpa [hgl] using happ

theorem dropWhile_getLast? {α : Type} (p : α → Bool) (l : List α)
    (h : l.dropWhile p ≠ []) : (l.dropWhile p).getLast? = l.getLast? := by
  induction l with
  | nil => simp at h
  | cons b l ih =>
    rw [List.dropWhile_cons] at h ⊢
    by_cases hb : p b = true
    · rw [if_pos hb] at h ⊢
      have hl : l.dropWhile p ≠ [] := h
      have hlne : l ≠ [] := by
        intro e
        subst e
        simp [List.dropWhile] at hl
      rw [ih hl, getLast?_cons_of_ne_nil b l hlne]
    · rw [if_neg hb]

theorem stripBoth_eq_self {p : Char → Bool} {l : List Char}
    (h1 : ∀ a, l.head? = some a → p a = false)
    (h2 : ∀ a, l.getLast? = some a → p a = false) : stripBoth p l = l := by
  unfold stripBoth
  have hd : l.dropWhile p = l := by
    cases l with
    | nil => rfl
    | cons b t =>
      have hb := h1 b (by simp)
      simp [List.dropWhile_cons, hb]
  rw [hd]
  have hr : l.reverse.dropWhile p = l.reverse := by
    cases hrv : l.reverse with
    | nil => simp
    | cons b t =>
      have hb : p b = false := by
        apply h2
        rw [← List.head?_reverse, hrv]
        simp
      rw [hrv] at hrv ⊢
      simp [List.dropWhile_cons, hb]
  rw [hr, List.reverse_reverse]

theorem stripBoth_head?_false {p : Char → Bool} {l : List Char} :
    ∀ a, (stripBoth p l).head? = some a → p a = false := by
  intro a h
  unfold stripBoth at h
  rw [List.head?_reverse] at h
  have hne : (l.dropWhile p).reverse.dropWhile p ≠ [] := by
    intro e
    rw [e] at h
    simp at h
  rw [dropWhile_getLast? p _ hne, List.getLast?_reverse] at h
  exact dropWhile_head?_false p l a h

theorem stripBoth_getLast?_false {p : Char → Bool} {l : List Char} :
    ∀ a, (stripBoth p l).getLast? = some a → p a = false := by
  intro a h
  unfold stripBoth at h
  rw [List.getLast?_reverse] at h
  exact dropWhile_head?_false p _ a h

theorem stripBoth_idem (p : Char → Bool) (l : List Char) :
    stripBoth p (stripBoth p l) = stripBoth p l :=
  stripBoth_eq_self stripBoth_head?_false stripBoth_getLast?_false

theorem pyStrip_idem (s : String) : pyStrip (pyStrip s) = pyStrip s := by
  unfold pyStrip
  exact congrArg String.mk (stripBoth_idem isPySpace s.data)

theorem pyStr_str (s : String) : pyStr (JValue.str s) = s := rfl

/-! ## Claim C4 -/

/-- Claim C4: for every parsed mapping payload, normalize_response with
require_content true raises the validation error exactly when overview,
match_level or top_fixes is empty after coercion, and with
require_content false it returns a normalised response. -/
theorem c4_normalize_validation :
    ∀ pairs : List (String × JValue),
      (isOkE (normalize_response (JValue.obj pairs) true) = false ↔
        (pyStrip (pyStr (objGetD pairs "overview" (JValue.str ""))) = "" ∨
         pyStrip (pyStr (objGetD pairs "match_level" (JValue.str ""))) = "" ∨
         coerce_list (objGetD pairs "top_fixes" (JValue.arr [])) = []))
      ∧ isOkE (normalize_response (JValue.obj pairs) false) = true := by
  intro pairs
  constructor
  · simp only [normalize_response]
    by_cases h : (pyStrip (pyStr (objGetD pairs "overview" (JValue.str ""))) = ""
      ∨ pyStrip (pyStr (objGetD pairs "match_level" (JValue.str ""))) = ""
      ∨ coerce_list (objGetD pairs "top_fixes" (JValue.arr [])) = [])
    · rw [if_pos (And.intro trivial h)]
      exact iff_of_true (show isOkE (Except.error
        "Missing required fields in model output" : Except String ReviewResponse)
          = false from rfl) h
    · rw [if_neg (fun hc => h hc.2)]
      exact iff_of_false (by simp [isOkE]) h
  · simp only [normalize_response]
    rw [if_neg (fun hc => Bool.false_ne_true hc.1)]
    rfl

/-- Witness for c4_normalize_validation at the empty mapping. -/
theorem c4_normalize_validation_witness :
    isOkE (normalize_response (JValue.obj []) true) = false
    ∧ isOkE (normalize_response (JValue.obj []) false) = true := by
  have h := c4_normalize_validation []
  exact ⟨h.1.mpr (Or.inl (by decide)), h.2⟩

/-! ## Claim C5 -/

/-- Claim C5 counterexample: the claim states the string branch output
holds no empty strings, but a line made only of dashes survives the
blank-line filter and strips to the empty string, which is kept. -/
theorem c5_counterexample :
    coerce_list (JValue.str "---") = [""]
    ∧ "" ∈ coerce_list (JValue.str "---") := by
  constructor
  · rfl
  · rw [(by rfl : coerce_list (JValue.str "---") = [""])]
    exact List.mem_singleton.mpr rfl

/-- Claim C5 as amended: coerce_list stringifies and trims list
elements dropping empties, splits a string into lines dropping the
whitespace-only ones and strips dash and space characters from both
ends of each kept line (possibly leaving empty strings), and returns
the empty list for any other type. -/
theorem c5_coerce_list_amended :
    ∀ v : JValue, coerce_list v = coerce_list_amended_spec v := by
  intro v
  cases v <;> rfl

/-! ## Claim C7 -/

/-- Claim C7: coerce_list maps a list of non-empty already-trimmed
strings to itself, and hence is idempotent on list inputs. -/
theorem c7_coerce_list_idempotent :
    (∀ xs : List String, (∀ s ∈ xs, pyStrip s = s ∧ s ≠ "") →
      coerce_list (JValue.arr (xs.map JValue.str)) = xs)
    ∧ (∀ v : List JValue,
      coerce_list (JValue.arr ((coerce_list (JValue.arr v)).map JValue.str)) =
        coerce_list (JValue.arr v)) := by
  have base : ∀ xs : List String, (∀ s ∈ xs, pyStrip s = s ∧ s ≠ "") →
      coerce_list (JValue.arr (xs.map JValue.str)) = xs := by
    intro xs h
    simp only [coerce_list]
    rw [List.map_map]
    have hmap : xs.map ((fun item => pyStrip (pyStr item)) ∘ JValue.str)
        = xs.map id :=
      List.map_congr_left (fun s hs => (h s hs).1)
    rw [hmap, List.map_id]
    exact List.filter_eq_self.mpr (fun s hs => bne_iff_ne.mpr (h s hs).2)
  refine ⟨base, ?_⟩
  intro v
  apply base
  intro s hs
  simp only [coerce_list] at hs
  obtain ⟨hmem, hne⟩ := List.mem_filter.mp hs
  obtain ⟨item, _, hitem⟩ := List.mem_map.mp hmem
  constructor
  · rw [← hitem]
    exact pyStrip_idem (pyStr item)
  · exact bne_iff_ne.mp hne

/-- Witness for c7_coerce_list_idempotent at a concrete list. -/
theorem c7_coerce_list_idempotent_witness :
    coerce_list (JValue.arr (["alpha", "beta"].map JValue.str)) =
      ["alpha", "beta"] := by
  exact c7_coerce_list_idempotent.1 ["alpha", "beta"] (by decide)

/-! ## extract_json lemmas -/

theorem str_data_append (a b : String) : (a ++ b).data = a.data ++ b.data := by
  rcases a with ⟨xs⟩
  rcases b with ⟨ys⟩
  rfl

theorem isPySpace_nl : isPySpace '\n' = true := by decide

theorem isPySpace_bt : isPySpace btChar = false := by decide

theorem isPySpace_lb : isPySpace lbChar = false := by decide

theorem isPySpace_rb : isPySpace rbChar = false := by decide

theorem firstIdxAux_cons_true {p : Char → Bool} {c : Char} (l : List Char)
    (i : Nat) (h : p c = true) : firstIdxAux p (c :: l) i = some i := by
  simp [firstIdxAux, h]

theorem lastIdxAux_append_last {p : Char → Bool} {c : Char} (h : p c = true) :
    ∀ (l : List Char) (i : Nat) (best : Option Nat),
      lastIdxAux p (l ++ [c]) i best = some (i + l.length) := by
  intro l
  induction l with
  | nil =>
    intro i best
    simp [lastIdxAux, h]
  | cons a l ih =>
    intro i best
    rw [List.cons_append]
    show lastIdxAux p (l ++ [c]) (i + 1) _ = _
    rw [ih (i + 1) _]
    congr 1
    simp
    omega

theorem braceSpanL_wrap (mid : List Char) :
    braceSpanL (lbChar :: (mid ++ [rbChar])) = some (lbChar :: (mid ++ [rbChar])) := by
  unfold braceSpanL
  have h1 : firstIdxAux (fun c => c == lbChar) (lbChar :: (mid ++ [rbChar])) 0
      = some 0 := firstIdxAux_cons_true _ 0 (by simp)
  have h2 : lastIdxAux (fun c => c == rbChar) (lbChar :: (mid ++ [rbChar])) 0 none
      = some (mid.length + 1) := by
    have := lastIdxAux_append_last (p := fun c => c == rbChar) (c := rbChar)
      (by simp) (lbChar :: mid) 0 none
    simpa using this
  rw [h1, h2]
  simp only [Nat.zero_lt_succ, if_pos]
  rw [List.drop_zero]
  congr 1
  have hlen : (lbChar :: (mid ++ [rbChar])).length = mid.length + 1 + 1 := by
    simp
  rw [show mid.length + 1 - 0 + 1 = (lbChar :: (mid ++ [rbChar])).length by
    rw [hlen]; omega]
  exact List.take_length _

theorem data_wrap (m : String) :
    ("\x7b" ++ m ++ "\x7d").data = lbChar :: (m.data ++ [rbChar]) := by
  rw [str_data_append, str_data_append]
  rw [show ("\x7b" : String).data = [lbChar] from by decide,
      show ("\x7d" : String).data = [rbChar] from by decide]
  simp

theorem getLast?_wrap (m : String) :
    (lbChar :: (m.data ++ [rbChar])).getLast? = some rbChar := by
  rw [show lbChar :: (m.data ++ [rbChar]) = (lbChar :: m.data) ++ [rbChar] by simp]
  exact List.getLast?_concat _

theorem stripBoth_wrap (m : String) :
    stripBoth isPySpace (lbChar :: (m.data ++ [rbChar]))
      = lbChar :: (m.data ++ [rbChar]) := by
  apply stripBoth_eq_self
  · intro a ha
    simp only [List.head?_cons, Option.some.injEq] at ha
    rw [← ha]
    exact isPySpace_lb
  · intro a ha
    rw [getLast?_wrap] at ha
    simp only [Option.some.injEq] at ha
    rw [← ha]
    exact isPySpace_rb

theorem take3_wrap_ne (m : String) :
    ¬ ((lbChar :: (m.data ++ [rbChar])).take 3 = [btChar, btChar, btChar]) := by
  intro heq
  rw [List.take_succ_cons] at heq
  simp only [List.cons.injEq] at heq
  exact absurd heq.1 (by decide)

theorem cleaned_of_nofence (m : String) :
    cleaned_of ("\x7b" ++ m ++ "\x7d") = lbChar :: (m.data ++ [rbChar]) := by
  simp only [cleaned_of, data_wrap, stripBoth_wrap]
  rw [if_neg (take3_wrap_ne m)]

theorem extract_json_nofence (m : String) :
    extract_json ("\x7b" ++ m ++ "\x7d") = "\x7b" ++ m ++ "\x7d" := by
  unfold extract_json
  rw [cleaned_of_nofence, braceSpanL_wrap]
  calc (⟨lbChar :: (m.data ++ [rbChar])⟩ : String)
      = ⟨("\x7b" ++ m ++ "\x7d").data⟩ := by rw [data_wrap]
    _ = "\x7b" ++ m ++ "\x7d" := rfl

theorem fence_mid (t : List Char) :
    ('\n' :: lbChar :: (t ++ [rbChar, '\n', btChar, btChar, btChar])).dropWhile
      isPySpace = lbChar :: (t ++ [rbChar, '\n', btChar, btChar, btChar]) := by
  rw [List.dropWhile_cons, if_pos isPySpace_nl, List.dropWhile_cons,
    if_neg (by simp [isPySpace_lb])]

theorem trail_fence (t : List Char) :
    (if (lbChar :: (t ++ [rbChar, '\n', btChar, btChar, btChar])).reverse.take 3
        = [btChar, btChar, btChar]
     then ((((lbChar :: (t ++ [rbChar, '\n', btChar, btChar, btChar])).reverse).drop
        3).dropWhile isPySpace).reverse
     else lbChar :: (t ++ [rbChar, '\n', btChar, btChar, btChar]))
    = lbChar :: (t ++ [rbChar]) := by
  have hrev : (lbChar :: (t ++ [rbChar, '\n', btChar, btChar, btChar])).reverse
      = btChar :: btChar :: btChar :: '\n' :: rbChar :: (t.reverse ++ [lbChar]) := by
    simp
  rw [hrev]
  show (List.dropWhile isPySpace
    ('\n' :: rbChar :: (t.reverse ++ [lbChar]))).reverse
    = lbChar :: (t ++ [rbChar])
  rw [List.dropWhile_cons, if_pos isPySpace_nl, List.dropWhile_cons,
    if_neg (by simp [isPySpace_rb])]
  simp

theorem fenceStripL_json (m : String) :
    fenceStripL (btChar :: btChar :: btChar :: 'j' :: 's' :: 'o' :: 'n' :: '\n' ::
      lbChar :: (m.data ++ [rbChar, '\n', btChar, btChar, btChar]))
      = lbChar :: (m.data ++ [rbChar]) := by
  show (if (List.dropWhile isPySpace ('\n' :: lbChar ::
      (m.data ++ [rbChar, '\n', btChar, btChar, btChar]))).reverse.take 3
        = [btChar, btChar, btChar]
     then (((List.dropWhile isPySpace ('\n' :: lbChar ::
        (m.data ++ [rbChar, '\n', btChar, btChar, btChar]))).reverse).drop
        3).dropWhile isPySpace |>.reverse
     else List.dropWhile isPySpace ('\n' :: lbChar ::
        (m.data ++ [rbChar, '\n', btChar, btChar, btChar])))
    = lbChar :: (m.data ++ [rbChar])
  rw [fence_mid]
  exact trail_fence m.data

theorem fenceStripL_plain (m : String) :
    fenceStripL (btChar :: btChar :: btChar :: '\n' ::
      lbChar :: (m.data ++ [rbChar, '\n', btChar, btChar, btChar]))
      = lbChar :: (m.data ++ [rbChar]) := by
  show (if (List.dropWhile isPySpace ('\n' :: lbChar ::
      (m.data ++ [rbChar, '\n', btChar, btChar, btChar]))).reverse.take 3
        = [btChar, btChar, btChar]
     then (((List.dropWhile isPySpace ('\n' :: lbChar ::
        (m.data ++ [rbChar, '\n', btChar, btChar, btChar]))).reverse).drop
        3).dropWhile isPySpace |>.reverse
     else List.dropWhile isPySpace ('\n' :: lbChar ::
        (m.data ++ [rbChar, '\n', btChar, btChar, btChar])))
    = lbChar :: (m.data ++ [rbChar])
  rw [fence_mid]
  exact trail_fence m.data

theorem stripBoth_eq_self_bt (l : List Char)
    (h1 : l.head? = some btChar) (h2 : l.getLast? = some btChar) :
    stripBoth isPySpace l = l := by
  apply stripBoth_eq_self
  · intro a ha
    rw [h1] at ha
    simp only [Option.some.injEq] at ha
    rw [← ha]
    exact isPySpace_bt
  · intro a ha
    rw [h2] at ha
    simp only [Option.some.injEq] at ha
    rw [← ha]
    exact isPySpace_bt

theorem data_fence_json (m : String) :
    ("```json\n\x7b" ++ m ++ "\x7d\n```").data
      = btChar :: btChar :: btChar :: 'j' :: 's' :: 'o' :: 'n' :: '\n' :: lbChar ::
        (m.data ++ [rbChar, '\n', btChar, btChar, btChar]) := by
  rw [str_data_append, str_data_append]
  rw [show ("```json\n\x7b" : String).data
      = [btChar, btChar, btChar, 'j', 's', 'o', 'n', '\n', lbChar] from by decide,
    show ("\x7d\n```" : String).data
      = [rbChar, '\n', btChar, btChar, btChar] from by decide]
  simp

theorem data_fence_plain (m : String) :
    ("```\n\x7b" ++ m ++ "\x7d\n```").data
      = btChar :: btChar :: btChar :: '\n' :: lbChar ::
        (m.data ++ [rbChar, '\n', btChar, btChar, btChar]) := by
  rw [str_data_append, str_data_append]
  rw [show ("```\n\x7b" : String).data
      = [btChar, btChar, btChar, '\n', lbChar] from by decide,
    show ("\x7d\n```" : String).data
      = [rbChar, '\n', btChar, btChar, btChar] from by decide]
  simp

theorem cleaned_of_fence_json (m : String) :
    cleaned_of ("```json\n\x7b" ++ m ++ "\x7d\n```")
      = lbChar :: (m.data ++ [rbChar]) := by
  simp only [cleaned_of, data_fence_json]
  have hst : stripBoth isPySpace (btChar :: btChar :: btChar :: 'j' :: 's' :: 'o' ::
      'n' :: '\n' :: lbChar :: (m.data ++ [rbChar, '\n', btChar, btChar, btChar]))
      = btChar :: btChar :: btChar :: 'j' :: 's' :: 'o' :: 'n' :: '\n' :: lbChar ::
        (m.data ++ [rbChar, '\n', btChar, btChar, btChar]) := by
    refine stripBoth_eq_self_bt _ rfl ?_
    rw [show btChar :: btChar :: btChar :: 'j' :: 's' :: 'o' :: 'n' :: '\n' ::
      lbChar :: (m.data ++ [rbChar, '\n', btChar, btChar, btChar])
      = (btChar :: btChar :: btChar :: 'j' :: 's' :: 'o' :: 'n' :: '\n' ::
        lbChar :: (m.data ++ [rbChar, '\n', btChar, btChar])) ++ [btChar] by simp]
    exact List.getLast?_concat _
  rw [hst]
  show fenceStripL (btChar :: btChar :: btChar :: 'j' :: 's' :: 'o' :: 'n' ::
    '\n' :: lbChar :: (m.data ++ [rbChar, '\n', btChar, btChar, btChar]))
    = lbChar :: (m.data ++ [rbChar])
  exact fenceStripL_json m

theorem cleaned_of_fence_plain (m : String) :
    cleaned_of ("```\n\x7b" ++ m ++ "\x7d\n```")
      = lbChar :: (m.data ++ [rbChar]) := by
  simp only [cleaned_of, data_fence_plain]
  have hst : stripBoth isPySpace (btChar :: btChar :: btChar :: '\n' :: lbChar ::
      (m.data ++ [rbChar, '\n', btChar, btChar, btChar]))
      = btChar :: btChar :: btChar :: '\n' :: lbChar ::
        (m.data ++ [rbChar, '\n', btChar, btChar, btChar]) := by
    refine stripBoth_eq_self_bt _ rfl ?_
    rw [show btChar :: btChar :: btChar :: '\n' ::
      lbChar :: (m.data ++ [rbChar, '\n', btChar, btChar, btChar])
      = (btChar :: btChar :: btChar :: '\n' ::
        lbChar :: (m.data ++ [rbChar, '\n', btChar, btChar])) ++ [btChar] by simp]
    exact List.getLast?_concat _
  rw [hst]
  show fenceStripL (btChar :: btChar :: btChar :: '\n' :: lbChar ::
    (m.data ++ [rbChar, '\n', btChar, btChar, btChar]))
    = lbChar :: (m.data ++ [rbChar])
  exact fenceStripL_plain m

theorem extract_json_fence_json (m : String) :
    extract_json ("```json\n\x7b" ++ m ++ "\x7d\n```") = "\x7b" ++ m ++ "\x7d" := by
  unfold extract_json
  rw [cleaned_of_fence_json, braceSpanL_wrap]
  calc (⟨lbChar :: (m.data ++ [rbChar])⟩ : String)
      = ⟨("\x7b" ++ m ++ "\x7d").data⟩ := by rw [data_wrap]
    _ = "\x7b" ++ m ++ "\x7d" := rfl

theorem extract_json_fence_plain (m : String) :
    extract_json ("```\n\x7b" ++ m ++ "\x7d\n```") = "\x7b" ++ m ++ "\x7d" := by
  unfold extract_json
  rw [cleaned_of_fence_plain, braceSpanL_wrap]
  calc (⟨lbChar :: (m.data ++ [rbChar])⟩ : String)
      = ⟨("\x7b" ++ m ++ "\x7d").data⟩ := by rw [data_wrap]
    _ = "\x7b" ++ m ++ "\x7d" := rfl

/-! ## Claim C6 -/

/-- Claim C6: for text consisting of a valid JSON object, optionally
wrapped in a triple-backtick code fence with or without the json tag,
extract_json returns exactly the enclosed JSON substring, the greedy
first-to-last brace span; and for input whose cleaned text holds no
brace span, extract_json returns the stripped text unchanged. -/
theorem c6_extract_json :
    (∀ m : String, isOkE (json_loads ("\x7b" ++ m ++ "\x7d")) = true →
      extract_json ("```json\n\x7b" ++ m ++ "\x7d\n```") = "\x7b" ++ m ++ "\x7d"
      ∧ extract_json ("```\n\x7b" ++ m ++ "\x7d\n```") = "\x7b" ++ m ++ "\x7d"
      ∧ extract_json ("\x7b" ++ m ++ "\x7d") = "\x7b" ++ m ++ "\x7d")
    ∧ (∀ t : String, braceSpanL (cleaned_of t) = none →
      extract_json t = String.mk (cleaned_of t)) := by
  constructor
  · intro m _
    exact ⟨extract_json_fence_json m, extract_json_fence_plain m,
      extract_json_nofence m⟩
  · intro t h
    unfold extract_json
    rw [h]

/-- Witness for c6_extract_json at a concrete fenced JSON object and a
concrete braceless text. -/
theorem c6_extract_json_witness :
    extract_json ("```json\n\x7b" ++ "\"k\": 1" ++ "\x7d\n```")
      = "\x7b" ++ "\"k\": 1" ++ "\x7d"
    ∧ extract_json "no braces here" = String.mk (cleaned_of "no braces here") := by
  constructor
  · exact (c6_extract_json.1 "\"k\": 1" (by decide)).1
  · exact c6_extract_json.2 "no braces here" (by decide)

/-! ## Model-invocation loop lemmas -/

theorem tryCandidates_success (gen : String → String → Except String String)
    (rc : Bool) (prompt m : String) (rest : List String) (s : LoopState)
    (resp : ReviewResponse) (h : tryModel gen rc prompt m = Except.ok resp) :
    tryCandidates gen rc prompt (m :: rest) s =
      (some resp, ⟨some m, s.lastError, s.calls ++ [m]⟩) := by
  cases hg : gen m prompt with
  | error msg =>
    simp only [tryModel, hg] at h
    exact Except.noConfusion h
  | ok raw =>
    cases hj : json_loads (extract_json raw) with
    | error msg =>
      simp only [tryModel, hg, hj] at h
      exact Except.noConfusion h
    | ok payload =>
      simp only [tryModel, hg, hj] at h
      simp only [tryCandidates, hg, hj, h]

theorem tryCandidates_skip_failures
    (gen : String → String → Except String String) (rc : Bool)
    (prompt : String) :
    ∀ (pre l : List String) (s : LoopState),
      (∀ c ∈ pre, ∃ msg, tryModel gen rc prompt c = Except.error msg) →
      ∃ a e, tryCandidates gen rc prompt (pre ++ l) s =
        tryCandidates gen rc prompt l ⟨a, e, s.calls ++ pre⟩ := by
  intro pre
  induction pre with
  | nil =>
    intro l s _
    refine ⟨s.active, s.lastError, ?_⟩
    rw [List.nil_append, List.append_nil]
  | cons c pre ih =>
    intro l s h
    obtain ⟨msg, hcm⟩ := h c (List.mem_cons_self c pre)
    have hrest : ∀ x ∈ pre, ∃ msg, tryModel gen rc prompt x = Except.error msg :=
      fun x hx => h x (List.mem_cons_of_mem c hx)
    rw [List.cons_append]
    cases hg : gen c prompt with
    | error m0 =>
      simp only [tryCandidates, hg]
      obtain ⟨a, e, heq⟩ := ih l ⟨s.active, some m0, s.calls ++ [c]⟩ hrest
      refine ⟨a, e, ?_⟩
      rw [heq]
      congr 1
      simp
    | ok raw =>
      cases hj : json_loads (extract_json raw) with
      | error m1 =>
        simp only [tryCandidates, hg, hj]
        obtain ⟨a, e, heq⟩ := ih l ⟨s.active, some m1, s.calls ++ [c]⟩ hrest
        refine ⟨a, e, ?_⟩
        rw [heq]
        congr 1
        simp
      | ok payload =>
        cases hn : normalize_response payload rc with
        | error m2 =>
          simp only [tryCandidates, hg, hj, hn]
          obtain ⟨a, e, heq⟩ := ih l ⟨some c, some m2, s.calls ++ [c]⟩ hrest
          refine ⟨a, e, ?_⟩
          rw [heq]
          congr 1
          simp
        | ok resp =>
          exfalso
          simp only [tryModel, hg, hj, hn] at hcm
          exact Except.noConfusion hcm

theorem tryCandidates_active (gen : String → String → Except String String)
    (rc : Bool) (prompt : String) :
    ∀ (l : List String) (s : LoopState) (d : String),
      (tryCandidates gen rc prompt l s).2.active = some d →
      s.active = some d ∨ (d ∈ l ∧ modelParses gen prompt d = true) := by
  intro l
  induction l with
  | nil =>
    intro s d h
    exact Or.inl h
  | cons m rest ih =>
    intro s d h
    cases hg : gen m prompt with
    | error msg =>
      simp only [tryCandidates, hg] at h
      rcases ih _ d h with h1 | h2
      · exact Or.inl h1
      · exact Or.inr ⟨List.mem_cons_of_mem _ h2.1, h2.2⟩
    | ok raw =>
      cases hj : json_loads (extract_json raw) with
      | error msg =>
        simp only [tryCandidates, hg, hj] at h
        rcases ih _ d h with h1 | h2
        · exact Or.inl h1
        · exact Or.inr ⟨List.mem_cons_of_mem _ h2.1, h2.2⟩
      | ok payload =>
        cases hn : normalize_response payload rc with
        | error msg =>
          simp only [tryCandidates, hg, hj, hn] at h
          rcases ih _ d h with h1 | h2
          · have hd : m = d := by simpa using h1
            subst hd
            refine Or.inr ⟨List.mem_cons_self _ _, ?_⟩
            simp [modelParses, hg, hj, isOkE]
          · exact Or.inr ⟨List.mem_cons_of_mem _ h2.1, h2.2⟩
        | ok resp =>
          simp only [tryCandidates, hg, hj, hn] at h
          have hd : m = d := by simpa using h
          subst hd
          refine Or.inr ⟨List.mem_cons_self _ _, ?_⟩
          simp [modelParses, hg, hj, isOkE]

theorem goAttempts_active (gen : String → String → Except String String)
    (cands : List String) (rc : Bool) :
    ∀ (n : Nat) (prompt : String) (s : LoopState) (d : String),
      (goAttempts gen cands rc n prompt s).2.active = some d →
      s.active = some d ∨ (d ∈ cands ∧ ∃ p, modelParses gen p d = true) := by
  intro n
  induction n using Nat.strong_induction_on with
  | _ n ih =>
    intro prompt s d h
    have step : ∀ (o : Option ReviewResponse) (s1 : LoopState),
        tryCandidates gen rc prompt cands s = (o, s1) →
        s1.active = some d →
        s.active = some d ∨ (d ∈ cands ∧ ∃ p, modelParses gen p d = true) := by
      intro o s1 htc h1
      rcases tryCandidates_active gen rc prompt cands s d
        (by rw [htc]; exact h1) with ha | hb
      · exact Or.inl ha
      · exact Or.inr ⟨hb.1, prompt, hb.2⟩
    rcases n with _ | n
    · rcases htc : tryCandidates gen rc prompt cands s with ⟨o, s1⟩
      cases o with
      | some resp =>
        simp only [goAttempts, htc] at h
        exact step _ s1 htc h
      | none =>
        simp only [goAttempts, htc] at h
        exact step _ s1 htc h
    · rcases n with _ | n
      · rcases htc : tryCandidates gen rc prompt cands s with ⟨o, s1⟩
        cases o with
        | some resp =>
          simp only [goAttempts, htc] at h
          exact step _ s1 htc h
        | none =>
          simp only [goAttempts, htc] at h
          exact step _ s1 htc h
      · rcases htc : tryCandidates gen rc prompt cands s with ⟨o, s1⟩
        cases o with
        | some resp =>
          simp only [goAttempts, htc] at h
          exact step _ s1 htc h
        | none =>
          simp only [goAttempts, htc] at h
          rcases ih (n + 1) (by omega) (prompt ++ strictSuffix) s1 d h with h1 | h2
          · rcases tryCandidates_active gen rc prompt cands s d
              (by rw [htc]; exact h1) with ha | hb
            · exact Or.inl ha
            · exact Or.inr ⟨hb.1, prompt, hb.2⟩
          · exact Or.inr h2

/-! ## Claim C1 -/

/-- Claim C1 counterexample: an output that parses as the empty JSON
object fails validation, yet the run records that candidate as the
active model, refuting that a candidate whose output fails validation
never becomes the recorded active model. -/
theorem c1_counterexample :
    isOkE (json_loads (extract_json "\x7b\x7d")) = true
    ∧ isOkE (normalize_response (JValue.obj []) true) = false
    ∧ (call_gemini_with_retry genEmptyObj ["m1"] "p" 0 true
        ⟨none, none, []⟩).2.active = some "m1"
    ∧ (call_gemini_with_retry genEmptyObj ["m1"] "p" 0 true
        ⟨none, none, []⟩).1 = Except.error ⟨500, parseFailMsg⟩ := by
  exact ⟨rfl, rfl, rfl, rfl⟩

/-- Claim C1 (amended): the active-model marker records a candidate as
soon as its output parses as JSON, before validation. First success
wins: when every earlier candidate fails and one passes generation,
parsing and validation, its normalised response is returned at once,
the marker records it and no later candidate is invoked. A candidate
whose output always fails generation, extraction or JSON parsing never
becomes the recorded active model (though one that parses and then
fails validation does). In the scenario where the first candidate
yields unparsable text and the second valid JSON, the response and the
recorded active model are the second candidate. -/
theorem c1_model_loop :
    (∀ (gen : String → String → Except String String) (rc : Bool)
      (prompt : String) (retries : Nat) (s0 : LoopState)
      (pre rest : List String) (m : String) (resp : ReviewResponse),
      (∀ c ∈ pre, ∃ msg, tryModel gen rc prompt c = Except.error msg) →
      tryModel gen rc prompt m = Except.ok resp →
      (call_gemini_with_retry gen (pre ++ m :: rest) prompt retries rc s0).1
        = Except.ok resp
      ∧ (call_gemini_with_retry gen (pre ++ m :: rest) prompt retries rc
          s0).2.active = some m
      ∧ (call_gemini_with_retry gen (pre ++ m :: rest) prompt retries rc
          s0).2.calls = s0.calls ++ (pre ++ [m]))
    ∧ (∀ (gen : String → String → Except String String) (cands : List String)
      (prompt : String) (retries : Nat) (rc : Bool) (s0 : LoopState)
      (c : String),
      (∀ p, modelParses gen p c = false) →
      (call_gemini_with_retry gen cands prompt retries rc s0).2.active = some c →
      s0.active = some c)
    ∧ ((call_gemini_with_retry genScenario ["m1", "m2"] "p" 2 true
        ⟨none, none, []⟩).1 = Except.ok scenarioResponse
      ∧ (call_gemini_with_retry genScenario ["m1", "m2"] "p" 2 true
        ⟨none, none, []⟩).2.active = some "m2"
      ∧ (call_gemini_with_retry genScenario ["m1", "m2"] "p" 2 true
        ⟨none, none, []⟩).2.calls = ["m1", "m2"]) := by
  refine ⟨?_, ?_, ?_, ?_, ?_⟩
  · intro gen rc prompt retries s0 pre rest m resp hpre hm
    obtain ⟨a, e, heq⟩ :=
      tryCandidates_skip_failures gen rc prompt pre (m :: rest) s0 hpre
    have hsucc := tryCandidates_success gen rc prompt m rest
      ⟨a, e, s0.calls ++ pre⟩ resp hm
    have htc : tryCandidates gen rc prompt (pre ++ m :: rest) s0
        = (some resp, ⟨some m, e, s0.calls ++ (pre ++ [m])⟩) := by
      rw [heq, hsucc]
      simp [List.append_assoc]
    have hgo : call_gemini_with_retry gen (pre ++ m :: rest) prompt retries rc s0
        = (Except.ok resp, ⟨some m, e, s0.calls ++ (pre ++ [m])⟩) := by
      unfold call_gemini_with_retry
      rcases retries with _ | n
      · simp only [goAttempts, htc]
      · simp only [goAttempts, htc]
    rw [hgo]
    exact ⟨rfl, rfl, rfl⟩
  · intro gen cands prompt retries rc s0 c hnp hact
    rcases goAttempts_active gen cands rc (retries + 1) prompt s0 c hact
      with h1 | h2
    · exact h1
    · obtain ⟨_, p, hp⟩ := h2
      rw [hnp p] at hp
      exact Bool.noConfusion hp
  · rfl
  · rfl
  · rfl

/-- Witness for c1_model_loop: first conjunct at the concrete scenario
oracle, second conjunct at an oracle that always raises. -/
theorem c1_model_loop_witness :
    (call_gemini_with_retry genScenario (["m1"] ++ "m2" :: []) "p" 2 true
      ⟨none, none, []⟩).1 = Except.ok scenarioResponse
    ∧ (⟨some "m1", none, []⟩ : LoopState).active = some "m1" := by
  constructor
  · exact (c1_model_loop.1 genScenario true "p" 2 ⟨none, none, []⟩ ["m1"] []
      "m2" scenarioResponse
      (by
        intro c hc
        have hc1 : c = "m1" := by simpa using hc
        subst hc1
        exact ⟨"Expecting value", rfl⟩)
      rfl).1
  · exact c1_model_loop.2.1 genBoom ["mA"] "p" 0 true ⟨some "m1", none, []⟩ "m1"
      (fun _ => rfl) rfl

/-! ## Claim C2 -/

theorem goAttempts_error (gen : String → String → Except String String)
    (cands : List String) (rc : Bool) :
    ∀ (n : Nat) (prompt : String) (s : LoopState) (e : HTTPError),
      (goAttempts gen cands rc n prompt s).1 = Except.error e →
      e = ⟨500, mkDetail (goAttempts gen cands rc n prompt s).2.lastError⟩ := by
  intro n
  induction n using Nat.strong_induction_on with
  | _ n ih =>
    intro prompt s e h
    rcases n with _ | n
    · rcases htc : tryCandidates gen rc prompt cands s with ⟨o, s1⟩
      cases o with
      | some resp =>
        simp only [goAttempts, htc] at h
        exact Except.noConfusion h
      | none =>
        simp only [goAttempts, htc] at h ⊢
        injection h with h2
        exact h2.symm
    · rcases n with _ | n
      · rcases htc : tryCandidates gen rc prompt cands s with ⟨o, s1⟩
        cases o with
        | some resp =>
          simp only [goAttempts, htc] at h
          exact Except.noConfusion h
        | none =>
          simp only [goAttempts, htc] at h ⊢
          injection h with h2
          exact h2.symm
      · rcases htc : tryCandidates gen rc prompt cands s with ⟨o, s1⟩
        cases o with
        | some resp =>
          simp only [goAttempts, htc] at h
          exact Except.noConfusion h
        | none =>
          simp only [goAttempts, htc] at h ⊢
          exact ih (n + 1) (by omega) (prompt ++ strictSuffix) s1 e h

theorem tryCandidates_notFound (rc : Bool) (prompt : String) :
    ∀ (l : List String) (s : LoopState),
      tryCandidates genNotFound rc prompt l s =
        (none, ⟨s.active,
          if l.isEmpty then s.lastError else some "model not found",
          s.calls ++ l⟩) := by
  intro l
  induction l with
  | nil =>
    intro s
    show (none, s) = _
    rw [List.append_nil]
    rfl
  | cons c l ih =>
    intro s
    show tryCandidates genNotFound rc prompt (c :: l) s = _
    simp only [tryCandidates, genNotFound]
    rw [ih]
    simp [List.append_assoc]

theorem goAttempts_notFound (cands : List String) (rc : Bool)
    (hne : cands ≠ []) :
    ∀ (n : Nat) (prompt : String) (s : LoopState),
      (goAttempts genNotFound cands rc n prompt s).1
        = Except.error ⟨500, noModelMsg⟩ := by
  have hemp : cands.isEmpty = false := by
    cases cands with
    | nil => exact absurd rfl hne
    | cons c l => rfl
  have hdetail : mkDetail (some "model not found") = noModelMsg := by
    simp only [mkDetail]
    rw [if_pos (by decide)]
  intro n
  induction n using Nat.strong_induction_on with
  | _ n ih =>
    intro prompt s
    rcases n with _ | n
    · simp only [goAttempts, tryCandidates_notFound rc prompt cands s, hemp]
      rw [if_neg Bool.false_ne_true, hdetail]
    · rcases n with _ | n
      · simp only [goAttempts, tryCandidates_notFound rc prompt cands s, hemp]
        rw [if_neg Bool.false_ne_true, hdetail]
      · simp only [goAttempts, tryCandidates_notFound rc prompt cands s, hemp]
        exact ih (n + 1) (by omega) (prompt ++ strictSuffix) _

/-- Claim C2 counterexample: the first candidate fails with a
non-availability parse error and the second with an availability error;
the terminal message still reports no model available, so the message
is not determined by whether every failure was an availability error. -/
theorem c2_counterexample :
    isOkE (json_loads (extract_json "garbage")) = false
    ∧ tryModel genMixed true "p" "m1" = Except.error "Expecting value"
    ∧ hasSub "Expecting value" "not found" = false
    ∧ hasSub "Expecting value" "not supported" = false
    ∧ (call_gemini_with_retry genMixed ["m1", "m2"] "p" 0 true
        ⟨none, none, []⟩).1 = Except.error ⟨500, noModelMsg⟩ := by
  exact ⟨rfl, rfl, by decide, by decide, rfl⟩

/-- Claim C2 (amended): the terminal error is always a 500 whose detail
is computed from the last recorded failure of the whole run: it is the
no-model-available message exactly when that last failure message
contains "not found" or "not supported", and the could-not-parse
message otherwise; in particular when every candidate raises
"model not found" the terminal message is the no-model one. -/
theorem c2_terminal_message :
    (∀ (gen : String → String → Except String String) (cands : List String)
      (prompt : String) (retries : Nat) (rc : Bool) (s0 : LoopState)
      (e : HTTPError),
      (call_gemini_with_retry gen cands prompt retries rc s0).1
        = Except.error e →
      e = ⟨500, mkDetail
        (call_gemini_with_retry gen cands prompt retries rc s0).2.lastError⟩)
    ∧ (∀ m : String, mkDetail (some m) = noModelMsg ↔
        (hasSub m "not found" = true ∨ hasSub m "not supported" = true))
    ∧ (∀ (cands : List String) (prompt : String) (retries : Nat) (rc : Bool)
      (s0 : LoopState), cands ≠ [] →
      (call_gemini_with_retry genNotFound cands prompt retries rc s0).1
        = Except.error ⟨500, noModelMsg⟩) := by
  refine ⟨?_, ?_, ?_⟩
  · intro gen cands prompt retries rc s0 e h
    exact goAttempts_error gen cands rc (retries + 1) prompt s0 e h
  · intro m
    simp only [mkDetail]
    cases hor : (hasSub m "not found" || hasSub m "not supported")
    · rw [if_neg (by simp [hor])]
      refine iff_of_false (by decide) ?_
      intro hc
      rcases hc with h1 | h2
      · simp [h1] at hor
      · simp [h2] at hor
    · rw [if_pos (by simp [hor])]
      exact iff_of_true rfl (Bool.or_eq_true_iff.mp hor)
  · intro cands prompt retries rc s0 hne
    exact goAttempts_notFound cands rc hne (retries + 1) prompt s0

/-- Witness for c2_terminal_message at concrete oracles. -/
theorem c2_terminal_message_witness :
    (⟨500, parseFailMsg⟩ : HTTPError)
      = ⟨500, mkDetail (call_gemini_with_retry genBoom ["mA"] "p" 0 true
          ⟨none, none, []⟩).2.lastError⟩
    ∧ mkDetail (some "model not found") = noModelMsg
    ∧ (call_gemini_with_retry genNotFound ["mA"] "p" 1 true
        ⟨none, none, []⟩).1 = Except.error ⟨500, noModelMsg⟩ := by
  refine ⟨?_, ?_, ?_⟩
  · exact c2_terminal_message.1 genBoom ["mA"] "p" 0 true ⟨none, none, []⟩
      ⟨500, parseFailMsg⟩ rfl
  · exact (c2_terminal_message.2.1 "model not found").mpr (Or.inl (by decide))
  · exact c2_terminal_message.2.2 ["mA"] "p" 1 true ⟨none, none, []⟩ (by simp)

/-! ## Request handler lemmas -/

theorem logGet_logSet (log : List (String × List Int)) (ip : String)
    (q : List Int) : logGet (logSet log ip q) ip = q := by
  simp [logGet, logSet, List.lookup]

theorem review_resume_empty (gen : String → String → Except String String)
    (cands : List String) (st : ServerState) (ip : String) (now : Int)
    (resume jd role : String)
    (hres : pyStrip resume = "") (hrole : pyStrip role = "")
    (hlt : (pruneQueue (logGet st.requestLog ip) now).length < RATE_LIMIT) :
    review_resume gen cands st ip now resume jd role =
      (Except.error ⟨400, "Provide a resume or a target role title."⟩,
       ⟨logSet st.requestLog ip (pruneQueue (logGet st.requestLog ip) now ++ [now]),
        st.activeModel⟩, []) := by
  have hen := enforce_allows (logGet st.requestLog ip) now hlt
  simp only [review_resume, hen]
  rw [hres, hrole]
  rw [if_pos ⟨rfl, rfl⟩]

/-! ## Claim C9 -/

/-- Claim C9: an admitted request whose resume and role title are both
empty after trimming is answered with the 400 client error, regardless
of the job description, and no model invocation happens; the tailor
handler delegates to the review handler unchanged. -/
theorem c9_empty_request :
    (∀ (gen : String → String → Except String String) (cands : List String)
      (st : ServerState) (ip : String) (now : Int) (resume jd role : String),
      pyStrip resume = "" → pyStrip role = "" →
      (pruneQueue (logGet st.requestLog ip) now).length < RATE_LIMIT →
      review_resume gen cands st ip now resume jd role =
        (Except.error ⟨400, "Provide a resume or a target role title."⟩,
         ⟨logSet st.requestLog ip
            (pruneQueue (logGet st.requestLog ip) now ++ [now]),
          st.activeModel⟩, []))
    ∧ (∀ (gen : String → String → Except String String) (cands : List String)
      (st : ServerState) (ip : String) (now : Int) (resume jd role : String),
      tailor_alias gen cands st ip now resume jd role
        = review_resume gen cands st ip now resume jd role) := by
  constructor
  · intro gen cands st ip now resume jd role hres hrole hlt
    exact review_resume_empty gen cands st ip now resume jd role hres hrole hlt
  · intro gen cands st ip now resume jd role
    rfl

/-- Witness for c9_empty_request at a concrete empty request. -/
theorem c9_empty_request_witness :
    review_resume genBoom ["mA"] ⟨[], none⟩ "client" 0 "" "" "" =
      (Except.error ⟨400, "Provide a resume or a target role title."⟩,
       ⟨logSet [] "client" (pruneQueue (logGet [] "client") 0 ++ [0]), none⟩,
       []) := by
  exact c9_empty_request.1 genBoom ["mA"] ⟨[], none⟩ "client" 0 "" "" ""
    rfl rfl (by decide)

/-! ## Claim C10 -/

/-- Claim C10: the rate-limit check runs before request validation, so
an admitted request that is then rejected with the 400 error because
resume and role title are both empty still appends its timestamp to the
rate-limit queue of the client, and the queue change persists. -/
theorem c10_rate_limit_before_validation :
    ∀ (gen : String → String → Except String String) (cands : List String)
      (st : ServerState) (ip : String) (now : Int) (resume jd role : String),
      pyStrip resume = "" → pyStrip role = "" →
      (pruneQueue (logGet st.requestLog ip) now).length < RATE_LIMIT →
      (review_resume gen cands st ip now resume jd role).1
        = Except.error ⟨400, "Provide a resume or a target role title."⟩
      ∧ logGet (review_resume gen cands st ip now resume jd role).2.1.requestLog
          ip = pruneQueue (logGet st.requestLog ip) now ++ [now] := by
  intro gen cands st ip now resume jd role hres hrole hlt
  rw [review_resume_empty gen cands st ip now resume jd role hres hrole hlt]
  exact ⟨rfl, logGet_logSet st.requestLog ip _⟩

/-- Witness for c10_rate_limit_before_validation: a whitespace resume
and empty role still consume one slot of capacity. -/
theorem c10_rate_limit_before_validation_witness :
    (review_resume genBoom ["mA"] ⟨[], none⟩ "client" 5 " " "" "").1
      = Except.error ⟨400, "Provide a resume or a target role title."⟩
    ∧ logGet (review_resume genBoom ["mA"] ⟨[], none⟩ "client" 5 " " ""
        "").2.1.requestLog "client"
      = pruneQueue (logGet [] "client") 5 ++ [5] := by
  exact c10_rate_limit_before_validation genBoom ["mA"] ⟨[], none⟩ "client" 5
    " " "" "" rfl rfl (by decide)

/-! ## Claim C8 -/

/-- Claim C8 counterexample: on the outline path the normaliser accepts
a reply whose match_level is "High" and whose resume_outline is empty,
so the response is not forced to match_level "Low" with a non-empty
outline. -/
theorem c8_counterexample :
    (review_resume genHighOnly ["mA"] ⟨[], none⟩ "client" 0 "" ""
        "Backend Engineer").1
      = Except.ok ⟨"", "High",
          [("profile_summary", emptyFeedback), ("experience", emptyFeedback),
           ("projects", emptyFeedback), ("skills", emptyFeedback),
           ("education", emptyFeedback)], [], [], [], [], []⟩
    ∧ ("High" : String) ≠ "Low" := by
  exact ⟨rfl, by decide⟩

/-- Claim C8 (amended): an admitted request with empty resume and role
title "Backend Engineer" is served through the no-resume outline prompt
with require_content false; the prompt text asks the model for
match_level Low and a resume outline, but the handler returns whatever
normalised response the model invocation produced, enforcing neither. -/
theorem c8_outline_path :
    ∀ (gen : String → String → Except String String) (cands : List String)
      (st : ServerState) (ip : String) (now : Int) (resume jd : String),
      pyStrip resume = "" →
      (pruneQueue (logGet st.requestLog ip) now).length < RATE_LIMIT →
      review_resume gen cands st ip now resume jd "Backend Engineer" =
        ((call_gemini_with_retry gen cands
            (outline_prompt "Backend Engineer" (pyStrip jd)) 2 false
            ⟨st.activeModel, none, []⟩).1,
         ⟨logSet st.requestLog ip
            (pruneQueue (logGet st.requestLog ip) now ++ [now]),
          (call_gemini_with_retry gen cands
            (outline_prompt "Backend Engineer" (pyStrip jd)) 2 false
            ⟨st.activeModel, none, []⟩).2.active⟩,
         (call_gemini_with_retry gen cands
            (outline_prompt "Backend Engineer" (pyStrip jd)) 2 false
            ⟨st.activeModel, none, []⟩).2.calls) := by
  intro gen cands st ip now resume jd hres hlt
  have hen := enforce_allows (logGet st.requestLog ip) now hlt
  simp only [review_resume, hen]
  rw [hres]
  rw [if_neg (fun hc => absurd hc.2 (by decide))]
  rw [if_pos rfl]
  rfl

/-- Witness for c8_outline_path at a concrete request. -/
theorem c8_outline_path_witness :
    review_resume genHighOnly ["mA"] ⟨[], none⟩ "client" 0 "" "some jd"
        "Backend Engineer" =
      ((call_gemini_with_retry genHighOnly ["mA"]
          (outline_prompt "Backend Engineer" (pyStrip "some jd")) 2 false
          ⟨none, none, []⟩).1,
       ⟨logSet [] "client" (pruneQueue (logGet [] "client") 0 ++ [0]),
        (call_gemini_with_retry genHighOnly ["mA"]
          (outline_prompt "Backend Engineer" (pyStrip "some jd")) 2 false
          ⟨none, none, []⟩).2.active⟩,
       (call_gemini_with_retry genHighOnly ["mA"]
          (outline_prompt "Backend Engineer" (pyStrip "some jd")) 2 false
          ⟨none, none, []⟩).2.calls) := by
  exact c8_outline_path genHighOnly ["mA"] ⟨[], none⟩ "client" 0 "" "some jd"
    rfl (by decide)
